import Mathlib

/-!
Verification development for the localstag spatial-graph versioning engine.

The Go source is shallowly embedded as follows.

* float64 values are modelled as exact rationals (`ℚ`).  No claim under
  consideration depends on IEEE rounding; the geometric-signature volume and
  its 3-decimal formatting are computed exactly.
* The MD5 content hash is modelled as the byte feed itself: `Hash` is the
  list of typed tokens written into the digest, in write order
  (`FastHasher.CalculateEventHash` in the source writes exactly these fields
  in exactly this order).  Equality of feeds implies equality of real MD5
  digests; inequality of feeds corresponds to digest inequality in the
  collision-free idealisation that the specification itself uses.
* bbolt buckets are modelled as key-sorted association lists
  (`Bucket`), since bbolt stores keys in byte order and cursors iterate in
  that order; `bput` is `Put` (insert or replace), `bget` is `Get`.
  Key comparison uses the `String` linear order (lexicographic on
  characters), which agrees with bbolt's byte order on ASCII keys.
* Each Go storage method wraps one `db.Update`/`db.View` transaction; it is
  modelled as one atomic function on `Store`.  Transaction failure
  (I/O error) is modelled by an explicit fault flag per write operation:
  a failed operation returns an error and leaves the store unchanged,
  exactly as an aborted bbolt transaction does.
* `time.Now()` during the processing of one event is modelled by a single
  `now : Nat` (unix seconds) parameter.
-/

/-- A metadata value stored in a `map[string]interface{}` field.  The engine
only ever stores strings (`geom_signature`, `trace_id`) and booleans
(the seen-session/client/device markers). -/
inductive MetaVal where
  | str (s : String)
  | boolv (b : Bool)
  deriving DecidableEq, Repr

/-- An association list keyed by strings, kept sorted by key: the model of one
bbolt bucket (and also used for Go maps, where order is irrelevant). -/
abbrev Bucket (V : Type) := List (String × V)

/-- Lexicographic comparison of character lists by code point: the model of
bbolt's `bytes.Compare` key order (identical to byte order on the ASCII
keys the engine builds). -/
def charsLt : List Char → List Char → Bool
  | [], [] => false
  | [], _ :: _ => true
  | _ :: _, [] => false
  | a :: as, b :: bs =>
      if a.toNat < b.toNat then true
      else if b.toNat < a.toNat then false
      else charsLt as bs

/-- Key order on strings (see `charsLt`). -/
def strLt (s t : String) : Bool := charsLt s.data t.data

/-- bbolt `Put`: insert or replace, keeping keys sorted. -/
def bput {V : Type} (k : String) (v : V) : Bucket V → Bucket V
  | [] => [(k, v)]
  | (k1, v1) :: rest =>
      if k = k1 then (k, v) :: rest
      else if strLt k k1 then (k, v) :: (k1, v1) :: rest
      else (k1, v1) :: bput k v rest

/-- bbolt `Get`: lookup by key (`none` models a missing key / NotFound). -/
def bget {V : Type} (k : String) : Bucket V → Option V
  | [] => none
  | (k1, v1) :: rest => if k = k1 then some v1 else bget k rest

/-- Rigid+scale pose (`storage.Transform`): translation [3]float64,
rotation [4]float64 (quaternion), scale [3]float64.  Fixed-size arrays are
modelled as lists; the hasher iterates over all entries. -/
structure Transform where
  translation : List ℚ
  rotation : List ℚ
  scale : List ℚ
  deriving DecidableEq, Repr

/-- `storage.MeshData`. -/
structure MeshData where
  anchorID : String
  vertices : List ℚ
  faces : List Nat
  normals : List ℚ
  colors : List ℚ
  textureCoords : List ℚ
  transform : Option Transform
  classification : String
  confidence : ℚ
  deriving DecidableEq, Repr

/-- `storage.PoseData`. -/
structure PoseData where
  transform : Option Transform
  velocity : List ℚ
  acceleration : List ℚ
  angularVelocity : List ℚ
  confidence : ℚ
  deriving DecidableEq, Repr

/-- `storage.CameraData`.  Image bytes are modelled as a list of byte
values; the timestamp and capture metadata fields are carried but never
read by the hasher. -/
structure CameraData where
  imageData : List Nat
  width : Int
  height : Int
  format : String
  intrinsics : List ℚ
  distortion : List ℚ
  transform : Option Transform
  timestamp : Nat
  exposure : ℚ
  iso : Int
  focalLength : ℚ
  deriving DecidableEq, Repr

/-- `storage.DepthData`. -/
structure DepthData where
  data : List ℚ
  width : Int
  height : Int
  confidence : List ℚ
  transform : Option Transform
  minRange : ℚ
  maxRange : ℚ
  timestamp : Nat
  deriving DecidableEq, Repr

/-- `storage.PointCloudData`. -/
structure PointCloudData where
  points : List ℚ
  colors : List ℚ
  normals : List ℚ
  confidence : List ℚ
  transform : Option Transform
  timestamp : Nat
  deriving DecidableEq, Repr

/-- `storage.LightingData`. -/
structure LightingData where
  ambientIntensity : ℚ
  directionalLight : List ℚ
  sphericalHarmonics : List ℚ
  colorTemperature : ℚ
  transform : Option Transform
  timestamp : Nat
  deriving DecidableEq, Repr

/-- `storage.SpatialEvent`.  `ProcessingInfo` is transport bookkeeping set by
the HTTP handler and never read by the versioning engine, so it is omitted. -/
structure SpatialEvent where
  eventID : String
  eventType : String
  timestamp : Nat
  serverTime : Nat
  sessionID : String
  clientID : String
  deviceID : String
  frameNumber : Nat
  transform : Option Transform
  poseData : Option PoseData
  meshData : Option MeshData
  cameraData : Option CameraData
  depthData : Option DepthData
  pointCloudData : Option PointCloudData
  lightingData : Option LightingData
  metadata : Bucket MetaVal
  deriving DecidableEq, Repr

/-- One token written into the MD5 digest by `FastHasher`.  A token records
the typed value whose little-endian bytes the Go code writes; list equality
models byte-stream equality (all claims compare feeds of identical shape). -/
inductive FeedTok where
  | str (s : String)
  | i32 (n : Nat)
  | u32 (n : Nat)
  | u64 (n : Nat)
  | f64 (q : ℚ)
  deriving DecidableEq, Repr

/-- The content hash: the MD5 input feed (see the file comment). -/
abbrev Hash := List FeedTok

/-- `FastHasher.hashTransform`: translation, rotation, scale, each value as
float64 LE. -/
def hashTransform (t : Transform) : List FeedTok :=
  t.translation.map FeedTok.f64 ++ t.rotation.map FeedTok.f64 ++
    t.scale.map FeedTok.f64

/-- The vertex/point sampling loop
`for i := 0; i < len; i += 30 { if i+2 < len { write v[i], v[i+1], v[i+2] } }`,
run for `count` iterations starting at index `i` (the caller passes the
iteration count `(len + 29) / 30` of the Go loop). -/
def strideSample3 (xs : List ℚ) : Nat → Nat → List FeedTok
  | 0, _ => []
  | c + 1, i =>
      (if i + 2 < xs.length then
        [FeedTok.f64 (xs.getD i 0), FeedTok.f64 (xs.getD (i + 1) 0),
          FeedTok.f64 (xs.getD (i + 2) 0)]
      else []) ++ strideSample3 xs c (i + 30)

/-- The face sampling loop `for i := 0; i < len; i += 10 { write f[i] }`,
run for `count` iterations starting at index `i`. -/
def strideSample1U (xs : List Nat) : Nat → Nat → List FeedTok
  | 0, _ => []
  | c + 1, i => FeedTok.u32 (xs.getD i 0) :: strideSample1U xs c (i + 10)

/-- The depth sampling loop `for i := 0; i < len; i += 10 { write d[i] }`. -/
def strideSample1F (xs : List ℚ) : Nat → Nat → List FeedTok
  | 0, _ => []
  | c + 1, i => FeedTok.f64 (xs.getD i 0) :: strideSample1F xs c (i + 10)

/-- The vertex section of `FastHasher.hashMeshData`: all vertices when the
vertex count (`len(vertices)/3`) is at most 1000, every 10th vertex
(30-float stride) otherwise. -/
def meshVertexFeed (m : MeshData) : List FeedTok :=
  if 1000 < m.vertices.length / 3 then
    strideSample3 m.vertices ((m.vertices.length + 29) / 30) 0
  else
    m.vertices.map FeedTok.f64

/-- The face section of `FastHasher.hashMeshData`: all faces when
`len(faces)` is at most 1000, every 10th face index otherwise. -/
def meshFaceFeed (m : MeshData) : List FeedTok :=
  if 1000 < m.faces.length then
    strideSample1U m.faces ((m.faces.length + 9) / 10) 0
  else
    m.faces.map FeedTok.u32

/-- `FastHasher.hashMeshData`: anchor id, vertex-array length and face-array
length as int32 LE, sampled vertices, sampled faces, classification,
confidence. -/
def hashMeshData (m : MeshData) : List FeedTok :=
  FeedTok.str m.anchorID :: FeedTok.i32 m.vertices.length ::
    FeedTok.i32 m.faces.length ::
    (meshVertexFeed m ++ meshFaceFeed m ++
      [FeedTok.str m.classification, FeedTok.f64 m.confidence])

/-- `FastHasher.hashPoseData`. -/
def hashPoseData (p : PoseData) : List FeedTok :=
  (match p.transform with
    | some t => hashTransform t
    | none => []) ++
    p.velocity.map FeedTok.f64 ++ p.acceleration.map FeedTok.f64 ++
    [FeedTok.f64 p.confidence]

/-- `FastHasher.hashCameraData`: width, height, format, image-data length
only (the image bytes themselves are never written), intrinsics, then the
camera transform if present. -/
def hashCameraData (c : CameraData) : List FeedTok :=
  FeedTok.i32 c.width.toNat :: FeedTok.i32 c.height.toNat ::
    FeedTok.str c.format :: FeedTok.i32 c.imageData.length ::
    (c.intrinsics.map FeedTok.f64 ++
      (match c.transform with
        | some t => hashTransform t
        | none => []))

/-- `FastHasher.hashDepthData`. -/
def hashDepthData (d : DepthData) : List FeedTok :=
  FeedTok.i32 d.width.toNat :: FeedTok.i32 d.height.toNat ::
    FeedTok.i32 d.data.length ::
    (if 1000 < d.data.length then
      strideSample1F d.data ((d.data.length + 9) / 10) 0
    else
      d.data.map FeedTok.f64)

/-- `FastHasher.hashPointCloudData`. -/
def hashPointCloudData (pc : PointCloudData) : List FeedTok :=
  FeedTok.i32 pc.points.length ::
    (if 1000 < pc.points.length / 3 then
      strideSample3 pc.points ((pc.points.length + 29) / 30) 0
    else
      pc.points.map FeedTok.f64)

/-- `FastHasher.hashLightingData`. -/
def hashLightingData (l : LightingData) : List FeedTok :=
  FeedTok.f64 l.ambientIntensity ::
    (l.directionalLight.map FeedTok.f64 ++
      l.sphericalHarmonics.map FeedTok.f64 ++
      [FeedTok.f64 l.colorTemperature])

/-- `FastHasher.CalculateEventHash`: event type, frame number, the
variant-specific bytes selected by the event type (skipped when the payload
pointer is nil), then the top-level transform if present. -/
def CalculateEventHash (e : SpatialEvent) : Hash :=
  FeedTok.str e.eventType :: FeedTok.u64 e.frameNumber ::
    ((if e.eventType = "mesh" then
        match e.meshData with
        | some m => hashMeshData m
        | none => []
      else if e.eventType = "pose" then
        match e.poseData with
        | some p => hashPoseData p
        | none => []
      else if e.eventType = "camera" then
        match e.cameraData with
        | some c => hashCameraData c
        | none => []
      else if e.eventType = "depth" then
        match e.depthData with
        | some d => hashDepthData d
        | none => []
      else if e.eventType = "pointCloud" then
        match e.pointCloudData with
        | some pc => hashPointCloudData pc
        | none => []
      else if e.eventType = "lighting" then
        match e.lightingData with
        | some l => hashLightingData l
        | none => []
      else []) ++
      (match e.transform with
        | some t => hashTransform t
        | none => []))

/-- Axis-aligned bounding box accumulator used by
`CalculateGeometrySignature`. -/
structure BBox where
  minX : ℚ
  minY : ℚ
  minZ : ℚ
  maxX : ℚ
  maxY : ℚ
  maxZ : ℚ
  deriving DecidableEq, Repr

/-- The bounding-box volume over all vertices, exactly as the Go loop
computes it (initialised from the first vertex, then
`for i := 0; i < len; i += 3 { if i+2 < len { min/max update } }`);
`0` when there are fewer than 3 coordinates (the Go zero values). -/
def bboxVolume (vs : List ℚ) : ℚ :=
  if 3 ≤ vs.length then
    let b0 : BBox :=
      { minX := vs.getD 0 0, minY := vs.getD 1 0, minZ := vs.getD 2 0,
        maxX := vs.getD 0 0, maxY := vs.getD 1 0, maxZ := vs.getD 2 0 }
    let step : BBox → Nat → BBox := fun b j =>
      let i := 3 * j
      if i + 2 < vs.length then
        { minX := min b.minX (vs.getD i 0), minY := min b.minY (vs.getD (i + 1) 0),
          minZ := min b.minZ (vs.getD (i + 2) 0),
          maxX := max b.maxX (vs.getD i 0), maxY := max b.maxY (vs.getD (i + 1) 0),
          maxZ := max b.maxZ (vs.getD (i + 2) 0) }
      else b
    let b := (List.range ((vs.length + 2) / 3)).foldl step b0
    (b.maxX - b.minX) * (b.maxY - b.minY) * (b.maxZ - b.minZ)
  else 0

/-- Go `fmt %.3f` on a nonnegative value, in exact arithmetic: three decimal
places, rounding half up (the bounding-box volume is never negative, and no
claim exercises a rounding tie). -/
def fmt3 (q : ℚ) : String :=
  let milli : Nat := (Int.floor (q * 1000 + 1 / 2)).toNat
  let ip := milli / 1000
  let fp := milli % 1000
  toString ip ++ "." ++
    (if fp < 10 then "00" else if fp < 100 then "0" else "") ++ toString fp

/-- `performance.CalculateGeometrySignature`:
`"<anchor_id>_<vertex_count>_<face_count>_<volume to 3dp>"`, `"empty"` for a
mesh with no vertices (the nil-mesh case is handled by the caller). -/
def CalculateGeometrySignature (m : MeshData) : String :=
  if m.vertices.isEmpty then "empty"
  else
    m.anchorID ++ "_" ++ toString (m.vertices.length / 3) ++ "_" ++
      toString m.faces.length ++ "_" ++ fmt3 (bboxVolume m.vertices)

/-- `storage.AnchorVersion`: an immutable snapshot plus provenance. -/
structure AnchorVersion where
  versionID : String
  hash : Hash
  timestamp : Nat
  changeType : String
  transform : Option Transform
  meshData : Option MeshData
  poseData : Option PoseData
  cameraData : Option CameraData
  depthData : Option DepthData
  pointCloudData : Option PointCloudData
  lightingData : Option LightingData
  eventID : String
  sessionID : String
  clientID : String
  deviceID : String
  frameNumber : Nat
  metadata : Bucket MetaVal
  deriving DecidableEq, Repr

/-- `storage.Anchor`.  The `versions` field is serialized with the record
(the Go struct embeds `Versions []AnchorVersion`); `GetAnchor` overwrites it
from the versions bucket on every read. -/
structure AnchorRec where
  id : String
  stagID : String
  currentHash : Hash
  versions : List AnchorVersion
  createdAt : Nat
  updatedAt : Nat
  lastSessionID : String
  lastClientID : String
  lastDeviceID : String
  metadata : Bucket MetaVal
  deriving DecidableEq, Repr

/-- `storage.StagStats` (per-graph statistics).  Counters are Go ints that
are only ever incremented from zero, modelled as `Nat`. -/
structure StagStats where
  anchorCount : Nat
  versionCount : Nat
  eventCount : Nat
  sessionCount : Nat
  clientCount : Nat
  deviceCount : Nat
  lastActivity : Nat
  firstActivity : Nat
  dataSize : Nat
  deriving DecidableEq, Repr

/-- The all-zero `StagStats` (the Go zero value). -/
def StagStats.zero : StagStats :=
  { anchorCount := 0, versionCount := 0, eventCount := 0, sessionCount := 0,
    clientCount := 0, deviceCount := 0, lastActivity := 0, firstActivity := 0,
    dataSize := 0 }

/-- `storage.Stag` (a graph).  The serialized `Anchors` map is written at
creation and overwritten from the anchors bucket on every read; the engine
never reads it, so it is omitted from the record. -/
structure StagRec where
  id : String
  name : String
  description : String
  createdAt : Nat
  updatedAt : Nat
  stats : StagStats
  metadata : Bucket MetaVal
  deriving DecidableEq, Repr

/-- The three bbolt buckets the versioning engine touches.  The `stats` and
`sessions` buckets exist in the source but no claim observes them (system
stats are only written by the HTTP ingest handler). -/
structure Store where
  stags : Bucket StagRec
  anchors : Bucket AnchorRec
  versions : Bucket AnchorVersion
  deriving DecidableEq, Repr

/-- The empty database (all buckets freshly created). -/
def emptyStore : Store := { stags := [], anchors := [], versions := [] }

/-- Anchors-bucket key: `anchor.StagID + ":" + anchor.ID`. -/
def anchorKey (stagID anchorID : String) : String := stagID ++ ":" ++ anchorID

/-- Versions-bucket key: `stagID + ":" + anchorID + ":" + versionID`. -/
def versionKey (stagID anchorID versionID : String) : String :=
  stagID ++ ":" ++ anchorID ++ ":" ++ versionID

/-- Go's prefix test on cursor keys:
`len(k) > len(pre) && string(k[:len(pre)]) == pre`. -/
def lpre : List Char → List Char → Bool
  | [], _ => true
  | _ :: _, [] => false
  | a :: as, b :: bs => if a = b then lpre as bs else false

/-- A cursor key `k` matches the range scan for `pre`: `pre` is a proper
prefix of `k`. -/
def keyMatches (pre k : String) : Bool :=
  lpre pre.data k.data && decide (pre.length < k.length)

/-- The prefix scan of the versions bucket for one anchor
(`BoltStorage.GetAnchorVersions`), in key order. -/
def scanVersions (st : Store) (stagID anchorID : String) : List AnchorVersion :=
  ((st.versions.filter fun p => keyMatches (versionKey stagID anchorID "") p.1).map
    fun p => p.2)

/-- Per-write-operation fault injection: `true` makes the corresponding
bbolt write transaction abort with a storage error (modelling I/O failure);
the store is then left unchanged, as bbolt guarantees. -/
structure Faults where
  createStag : Bool
  createAnchor : Bool
  addVersion : Bool
  updateAnchor : Bool
  updateStats : Bool
  deriving DecidableEq, Repr

/-- No injected faults: every write transaction commits. -/
def noFaults : Faults :=
  { createStag := false, createAnchor := false, addVersion := false,
    updateAnchor := false, updateStats := false }

/-- `BoltStorage.CreateStag`: fails if the key is present, otherwise stamps
`CreatedAt`/`UpdatedAt` and stores the record.  Returns the stored record as
well, modelling Go's in-place mutation of the caller's struct. -/
def CreateStag (fail : Bool) (now : Nat) (st : Store) (stag : StagRec) :
    Except String (Store × StagRec) :=
  if fail then .error "storage error" else
  if (bget stag.id st.stags).isSome then .error "stag already exists"
  else
    let stored := { stag with createdAt := now, updatedAt := now }
    .ok ({ st with stags := bput stag.id stored st.stags }, stored)

/-- `BoltStorage.GetStag` (the anchors map it additionally materialises is
not read by the engine). -/
def GetStag (st : Store) (stagID : String) : Option StagRec :=
  bget stagID st.stags

/-- `BoltStorage.UpdateStagStats`: re-reads the stored record, replaces its
`Stats`, stamps `UpdatedAt`, and writes it back. -/
def UpdateStagStats (fail : Bool) (now : Nat) (st : Store) (stagID : String)
    (stats : StagStats) : Except String Store :=
  if fail then .error "storage error" else
  match bget stagID st.stags with
  | none => .error "stag not found"
  | some rec0 =>
      .ok { st with
        stags := bput stagID { rec0 with stats := stats, updatedAt := now } st.stags }

/-- `BoltStorage.CreateAnchor`: fails with AlreadyExists if the key is
present, otherwise stamps timestamps and stores the record (including its
empty serialized version chain).  Returns the stored record, modelling Go's
in-place mutation. -/
def CreateAnchor (fail : Bool) (now : Nat) (st : Store) (a : AnchorRec) :
    Except String (Store × AnchorRec) :=
  if fail then .error "storage error" else
  if (bget (anchorKey a.stagID a.id) st.anchors).isSome then
    .error "anchor already exists"
  else
    let stored := { a with createdAt := now, updatedAt := now }
    .ok ({ st with anchors := bput (anchorKey a.stagID a.id) stored st.anchors },
      stored)

/-- `BoltStorage.GetAnchor`: reads the record and overwrites its `versions`
with the prefix scan of the versions bucket. -/
def GetAnchor (st : Store) (stagID anchorID : String) : Option AnchorRec :=
  (bget (anchorKey stagID anchorID) st.anchors).map fun a =>
    { a with versions := scanVersions st stagID anchorID }

/-- `BoltStorage.UpdateAnchor`: fails with NotFound if the key is absent,
otherwise stamps `UpdatedAt` and writes the record back. -/
def UpdateAnchor (fail : Bool) (now : Nat) (st : Store) (a : AnchorRec) :
    Except String Store :=
  if fail then .error "storage error" else
  if (bget (anchorKey a.stagID a.id) st.anchors).isSome then
    .ok { st with
      anchors := bput (anchorKey a.stagID a.id) { a with updatedAt := now } st.anchors }
  else .error "anchor does not exist"

/-- `BoltStorage.AddAnchorVersion`: an unconditional `Put` under the key
`stagID:anchorID:versionID` — there is no exists-check, so a duplicate
version id silently replaces the stored version. -/
def AddAnchorVersion (fail : Bool) (st : Store) (stagID anchorID : String)
    (v : AnchorVersion) : Except String Store :=
  if fail then .error "storage error" else
  .ok { st with
    versions := bput (versionKey stagID anchorID v.versionID) v st.versions }

/-- `BoltStorage.GetAnchorVersions`. -/
def GetAnchorVersions (st : Store) (stagID anchorID : String) :
    List AnchorVersion :=
  scanVersions st stagID anchorID

/-- `BoltStorage.ListAnchors`: prefix scan of the anchors bucket, with each
anchor's version chain materialised. -/
def ListAnchors (st : Store) (stagID : String) : List AnchorRec :=
  ((st.anchors.filter fun p => keyMatches (stagID ++ ":") p.1).map fun p =>
    { p.2 with versions := scanVersions st stagID p.2.id })

/-- The paging loop of `BoltStorage.GetAnchorVersionsWithPaging`: skip while
`current < offset`, then collect until `limit` items are taken. -/
def pageLoop (offset limit : Int) : List AnchorVersion → Int → Nat →
    List AnchorVersion
  | [], _, _ => []
  | v :: rest, current, taken =>
      if current < offset then pageLoop offset limit rest (current + 1) taken
      else if limit ≤ (taken : Int) then []
      else v :: pageLoop offset limit rest (current + 1) (taken + 1)

/-- `BoltStorage.GetAnchorVersionsWithPaging`: a full prefix scan for the
total count, then the skip/take loop over the same scan. -/
def GetAnchorVersionsWithPaging (st : Store) (stagID anchorID : String)
    (offset limit : Int) : List AnchorVersion × Nat :=
  let scan := scanVersions st stagID anchorID
  (pageLoop offset limit scan 0 0, scan.length)

/-- `storage.AnchorHistory`. -/
structure AnchorHistory where
  anchorID : String
  stagID : String
  versions : List AnchorVersion
  total : Nat
  offset : Int
  limit : Int
  deriving DecidableEq, Repr

/-- `BoltStorage.GetAnchorHistory`. -/
def GetAnchorHistory (st : Store) (stagID anchorID : String)
    (offset limit : Int) : AnchorHistory :=
  let pg := GetAnchorVersionsWithPaging st stagID anchorID offset limit
  { anchorID := anchorID, stagID := stagID, versions := pg.1, total := pg.2,
    offset := offset, limit := limit }

/-- The pagination parsing of `Service.HandleGetAnchorHistory`: `offset`
defaults to 0 and accepts any parsed integer; `limit` defaults to 50 and a
supplied value is used only when `0 < limit ≤ 1000`, otherwise the default
50 silently stands (there is no error response and no clamping).  `none`
models an absent or non-numeric query parameter. -/
def HandleGetAnchorHistory (st : Store) (stagID anchorID : String)
    (offsetParam limitParam : Option Int) : AnchorHistory :=
  let offset : Int :=
    match offsetParam with
    | some p => p
    | none => 0
  let limit : Int :=
    match limitParam with
    | some p => if 0 < p ∧ p ≤ 1000 then p else 50
    | none => 50
  GetAnchorHistory st stagID anchorID offset limit

/-- The version record built by `processAnchorEvent` (the struct literal at
service.go:354-372): `version_id` is `fmt.Sprintf("v%d", time.Now().Unix())`,
`change_type` starts as `"update"` and is overwritten with `"create"` by the
caller when the anchor's chain is empty. -/
def mkAnchorVersion (now : Nat) (h : Hash) (e : SpatialEvent) : AnchorVersion :=
  { versionID := "v" ++ toString now, hash := h, timestamp := e.timestamp,
    changeType := "update", transform := e.transform, meshData := e.meshData,
    poseData := e.poseData, cameraData := e.cameraData,
    depthData := e.depthData, pointCloudData := e.pointCloudData,
    lightingData := e.lightingData, eventID := e.eventID,
    sessionID := e.sessionID, clientID := e.clientID, deviceID := e.deviceID,
    frameNumber := e.frameNumber, metadata := e.metadata }

/-- The mesh geometric-signature filter (service.go:344-351), applied after
the content-hash check: when the event is a mesh and the anchor's stored
`geom_signature` metadata equals the event's signature, the event is skipped
(`none`) and the stored signature is left untouched; otherwise the
signature is written into the anchor's metadata and processing proceeds
with the updated anchor (`some`). -/
def meshSigFilter (e : SpatialEvent) (anchor : AnchorRec) : Option AnchorRec :=
  if e.eventType = "mesh" then
    match e.meshData with
    | some m =>
        let geomSig := CalculateGeometrySignature m
        if bget "geom_signature" anchor.metadata = some (.str geomSig) then none
        else some { anchor with metadata := bput "geom_signature" (.str geomSig) anchor.metadata }
    | none => some anchor
  else some anchor

/-- The per-graph statistics update of `processAnchorEvent`
(service.go:393-414): bump `last_activity`, `event_count`, `version_count`,
and bump each of the session/client/device counters when the corresponding
`session_<id>`/`client_<id>`/`device_<id>` marker is absent from the
in-memory stag metadata (the markers themselves are persisted only as far
as `UpdateStagStats` persists them — it does not, see its definition). -/
def bumpStagStats (now : Nat) (stag : StagRec) (e : SpatialEvent) : StagStats :=
  let s0 := { stag.stats with
    lastActivity := now,
    eventCount := stag.stats.eventCount + 1,
    versionCount := stag.stats.versionCount + 1 }
  let s1 := if bget ("session_" ++ e.sessionID) stag.metadata = none then
    { s0 with sessionCount := s0.sessionCount + 1 } else s0
  let s2 := if bget ("client_" ++ e.clientID) stag.metadata = none then
    { s1 with clientCount := s1.clientCount + 1 } else s1
  if bget ("device_" ++ e.deviceID) stag.metadata = none then
    { s2 with deviceCount := s2.deviceCount + 1 } else s2

/-- The tail of `processAnchorEvent` from the content-hash check onward
(service.go:337-429), shared by the anchor-found and the freshly-created
branches.  Returns the store after whatever write transactions committed,
plus the error of the first failing sub-step, if any.  Note that each
failing sub-step leaves the writes of the preceding sub-steps in place,
because each storage call is its own bbolt transaction. -/
def anchorDedupAndAppend (fts : Faults) (now : Nat) (st : Store)
    (stag : StagRec) (anchorID : String) (e : SpatialEvent)
    (contentHash : Hash) (anchor : AnchorRec) : Store × Option String :=
  if anchor.currentHash = contentHash then (st, none)
  else
    match meshSigFilter e anchor with
    | none => (st, none)
    | some anchor1 =>
        let v0 := mkAnchorVersion now contentHash e
        let version := if anchor1.versions = [] then
          { v0 with changeType := "create" } else v0
        match AddAnchorVersion fts.addVersion st stag.id anchorID version with
        | .error msg => (st, some msg)
        | .ok st1 =>
            let anchor2 := { anchor1 with
              currentHash := contentHash,
              lastSessionID := e.sessionID, lastClientID := e.clientID,
              lastDeviceID := e.deviceID,
              versions := anchor1.versions ++ [version] }
            match UpdateAnchor fts.updateAnchor now st1 anchor2 with
            | .error msg => (st1, some msg)
            | .ok st2 =>
                match UpdateStagStats fts.updateStats now st2 stag.id
                    (bumpStagStats now stag e) with
                | .error msg => (st2, some msg)
                | .ok st3 => (st3, none)

/-- `Service.processAnchorEvent` (service.go:294-430): compute the content
hash, get or create the anchor — a freshly created anchor is stored with
`CurrentHash = contentHash` and an empty version chain — then run the dedup
checks and, if content changed, append a version, update the anchor head and
the graph statistics, each in its own write transaction. -/
def processAnchorEvent (fts : Faults) (now : Nat) (st : Store)
    (stag : StagRec) (anchorID : String) (e : SpatialEvent) :
    Store × Option String :=
  let contentHash := CalculateEventHash e
  match GetAnchor st stag.id anchorID with
  | some anchor => anchorDedupAndAppend fts now st stag anchorID e contentHash anchor
  | none =>
      let a0 : AnchorRec :=
        { id := anchorID, stagID := stag.id, currentHash := contentHash,
          versions := [], createdAt := 0, updatedAt := 0,
          lastSessionID := e.sessionID, lastClientID := e.clientID,
          lastDeviceID := e.deviceID, metadata := [] }
      match CreateAnchor fts.createAnchor now st a0 with
      | .error msg => (st, some msg)
      | .ok (st1, anchor) =>
          anchorDedupAndAppend fts now st1 stag anchorID e contentHash anchor

/-- `Service.processMeshEvent`: requires mesh data; the anchor id is the
mesh's own, falling back to `mesh_<client>_<frame>` when empty. -/
def processMeshEvent (fts : Faults) (now : Nat) (st : Store) (stag : StagRec)
    (e : SpatialEvent) : Store × Option String :=
  match e.meshData with
  | none => (st, some "mesh event missing mesh data")
  | some m =>
      let anchorID := if m.anchorID = "" then
        "mesh_" ++ e.clientID ++ "_" ++ toString e.frameNumber else m.anchorID
      processAnchorEvent fts now st stag anchorID e

/-- `Service.processPoseEvent`. -/
def processPoseEvent (fts : Faults) (now : Nat) (st : Store) (stag : StagRec)
    (e : SpatialEvent) : Store × Option String :=
  match e.poseData with
  | none => (st, some "pose event missing pose data")
  | some _ => processAnchorEvent fts now st stag ("pose_" ++ e.clientID) e

/-- `Service.processCameraEvent`. -/
def processCameraEvent (fts : Faults) (now : Nat) (st : Store) (stag : StagRec)
    (e : SpatialEvent) : Store × Option String :=
  match e.cameraData with
  | none => (st, some "camera event missing camera data")
  | some _ => processAnchorEvent fts now st stag ("camera_" ++ e.clientID) e

/-- `Service.processDepthEvent`. -/
def processDepthEvent (fts : Faults) (now : Nat) (st : Store) (stag : StagRec)
    (e : SpatialEvent) : Store × Option String :=
  match e.depthData with
  | none => (st, some "depth event missing depth data")
  | some _ => processAnchorEvent fts now st stag ("depth_" ++ e.clientID) e

/-- `Service.processPointCloudEvent`. -/
def processPointCloudEvent (fts : Faults) (now : Nat) (st : Store)
    (stag : StagRec) (e : SpatialEvent) : Store × Option String :=
  match e.pointCloudData with
  | none => (st, some "pointCloud event missing point cloud data")
  | some _ =>
      processAnchorEvent fts now st stag
        ("pointcloud_" ++ e.clientID ++ "_" ++ toString e.frameNumber) e

/-- `Service.processLightingEvent`. -/
def processLightingEvent (fts : Faults) (now : Nat) (st : Store)
    (stag : StagRec) (e : SpatialEvent) : Store × Option String :=
  match e.lightingData with
  | none => (st, some "lighting event missing lighting data")
  | some _ => processAnchorEvent fts now st stag ("lighting_" ++ e.clientID) e

/-- `Service.processGenericEvent` (the default switch arm). -/
def processGenericEvent (fts : Faults) (now : Nat) (st : Store)
    (stag : StagRec) (e : SpatialEvent) : Store × Option String :=
  processAnchorEvent fts now st stag
    ("generic_" ++ e.clientID ++ "_" ++ toString e.frameNumber) e

/-- The event-type switch of `Service.processEvent`. -/
def dispatchEvent (fts : Faults) (now : Nat) (st : Store) (stag : StagRec)
    (e : SpatialEvent) : Store × Option String :=
  if e.eventType = "mesh" then processMeshEvent fts now st stag e
  else if e.eventType = "pose" then processPoseEvent fts now st stag e
  else if e.eventType = "camera" then processCameraEvent fts now st stag e
  else if e.eventType = "depth" then processDepthEvent fts now st stag e
  else if e.eventType = "pointCloud" then processPointCloudEvent fts now st stag e
  else if e.eventType = "lighting" then processLightingEvent fts now st stag e
  else processGenericEvent fts now st stag e

/-- `Service.processEvent` (service.go:185-229): map the session id to the
stag id (`"default"` when empty), get or auto-create the stag, then
dispatch on the event type. -/
def processEvent (fts : Faults) (now : Nat) (st : Store) (e : SpatialEvent) :
    Store × Option String :=
  let stagID := if e.sessionID = "" then "default" else e.sessionID
  match GetStag st stagID with
  | some stag => dispatchEvent fts now st stag e
  | none =>
      let s0 : StagRec :=
        { id := stagID, name := "Session " ++ stagID,
          description := "Automatically created from session " ++ stagID,
          createdAt := 0, updatedAt := 0,
          stats := { StagStats.zero with firstActivity := now },
          metadata := [] }
      match CreateStag fts.createStag now st s0 with
      | .error msg => (st, some msg)
      | .ok (st1, stag) => dispatchEvent fts now st1 stag e

/-- A batch run of the engine (`Service.processBatch`): events are applied
one at a time; an event's failure is logged and does not stop the batch.
Each pair carries the `time.Now()` second observed while that event is
processed. -/
def ingestAll (evs : List (Nat × SpatialEvent)) (st : Store) : Store :=
  evs.foldl (fun acc p => (processEvent noFaults p.1 acc p.2).1) st

/-- The triangle mesh of scenario event 1/2: vertices
[0,0,0, 1,0,0, 0,1,0], faces [0,1,2], anchor id "A". -/
def mesh1 : MeshData :=
  { anchorID := "A", vertices := [0, 0, 0, 1, 0, 0, 0, 1, 0],
    faces := [0, 1, 2], normals := [], colors := [], textureCoords := [],
    transform := none, classification := "", confidence := 0 }

/-- The scenario event-3 mesh: one vertex coordinate changed. -/
def mesh3 : MeshData := { mesh1 with vertices := [0, 0, 0, 1, 0, 0, 0, 1, 1] }

/-- A mesh event of the scenario: session S1, client C1, device D1, the
given frame number and mesh payload. -/
def mkMeshEvent (frame : Nat) (m : MeshData) : SpatialEvent :=
  { eventID := "e" ++ toString frame, eventType := "mesh", timestamp := frame,
    serverTime := frame, sessionID := "S1", clientID := "C1", deviceID := "D1",
    frameNumber := frame, transform := none, poseData := none,
    meshData := some m, cameraData := none, depthData := none,
    pointCloudData := none, lightingData := none, metadata := [] }

/-- The store after the create/dedup/update scenario: the three events of
spec §8 scenario 1, processed at seconds 100, 101, 102. -/
def c1Store : Store :=
  ingestAll [(100, mkMeshEvent 1 mesh1), (101, mkMeshEvent 2 mesh1),
    (102, mkMeshEvent 3 mesh3)] emptyStore

/-- C1: what the code actually produces on the scenario.  Graph "S1" holds
the single anchor "A" with exactly two versions, the first `create` and the
second `update`, and `version_count = 2`, as the claim states — but
`session_count`, `client_count` and `device_count` are all 2, not 1: the
seen-id markers are stored only in the in-memory stag metadata and
`UpdateStagStats` re-reads the stored record and replaces nothing but its
stats, so every version-producing event re-increments all three counters.
(Also, the first stored version comes from event 2, not event 1: a freshly
created anchor starts with `CurrentHash` equal to the creating event's hash,
so event 1 appends nothing, while event 2 — whose hash differs because the
frame number is hashed — appends the `create` version.) -/
theorem c1_scenario :
    (GetAnchorVersions c1Store "S1" "A").map (fun v => v.changeType) =
      ["create", "update"] ∧
    (ListAnchors c1Store "S1").map (fun a => a.id) = ["A"] ∧
    (GetStag c1Store "S1").map
      (fun g => (g.stats.versionCount, g.stats.sessionCount,
        g.stats.clientCount, g.stats.deviceCount)) = some (2, 2, 2, 2) :=
  of_decide_eq_true (by with_unfolding_all rfl)

/-- The all-zero pose payload used by the duplicate-ingestion input. -/
def zeroPose : PoseData :=
  { transform := none, velocity := [], acceleration := [],
    angularVelocity := [], confidence := 0 }

/-- A valid pose event (session S1, client C1, device D1, frame 7). -/
def poseEv : SpatialEvent :=
  { eventID := "p1", eventType := "pose", timestamp := 5,
    serverTime := 5, sessionID := "S1", clientID := "C1", deviceID := "D1",
    frameNumber := 7, transform := none, poseData := some zeroPose,
    meshData := none, cameraData := none, depthData := none,
    pointCloudData := none, lightingData := none, metadata := [] }

/-- The store after ingesting `poseEv` once into an empty store. -/
def c2Store1 : Store := (processEvent noFaults 100 emptyStore poseEv).1

/-- C2: ingesting the same valid event twice into an empty store appends
ZERO versions, not one.  The first ingestion succeeds but only creates the
anchor (`CreateAnchor` stores `CurrentHash = contentHash`, so the
content-unchanged check at service.go:338 immediately fires for the
creating event and no version is ever appended); the second ingestion is a
no-op.  The claim says the first ingestion appends a version. -/
theorem c2_duplicate_ingest :
    (processEvent noFaults 100 emptyStore poseEv).2 = none ∧
    (GetAnchor c2Store1 "S1" "pose_C1").isSome = true ∧
    GetAnchorVersions c2Store1 "S1" "pose_C1" = [] ∧
    processEvent noFaults 101 c2Store1 poseEv = (c2Store1, none) :=
  of_decide_eq_true (by with_unfolding_all rfl)

/-- Characters with equal code points are equal. -/
lemma char_toNat_inj {a b : Char} (h : a.toNat = b.toNat) : a = b :=
  Char.ext (UInt32.ext h)

/-- Strings with equal character lists are equal. -/
lemma str_data_inj {s t : String} (h : s.data = t.data) : s = t := by
  cases s; cases t; exact congrArg String.mk h

/-- `charsLt` is irreflexive. -/
lemma charsLt_irrefl (l : List Char) : charsLt l l = false := by
  induction l with
  | nil => rfl
  | cons a as ih => simp [charsLt, ih]

/-- `charsLt` is transitive. -/
lemma charsLt_trans :
    ∀ {a b c : List Char}, charsLt a b = true → charsLt b c = true →
      charsLt a c = true := by
  intro a
  induction a with
  | nil =>
      intro b c hab hbc
      cases b with
      | nil => exact absurd hab (by simp [charsLt])
      | cons y ys =>
          cases c with
          | nil => exact absurd hbc (by simp [charsLt])
          | cons z zs => simp [charsLt]
  | cons x xs ih =>
      intro b c hab hbc
      cases b with
      | nil => exact absurd hab (by simp [charsLt])
      | cons y ys =>
          cases c with
          | nil => exact absurd hbc (by simp [charsLt])
          | cons z zs =>
              simp only [charsLt] at hab hbc ⊢
              rcases Nat.lt_trichotomy x.toNat y.toNat with hxy | hxy | hxy
              · rcases Nat.lt_trichotomy y.toNat z.toNat with hyz | hyz | hyz
                · simp [Nat.lt_trans hxy hyz]
                · simp [hyz ▸ hxy]
                · simp only [if_pos hyz] at hbc
                  simp only [if_neg (Nat.lt_asymm hyz), if_pos hyz] at hbc
                  exact absurd hbc (by simp)
              · cases char_toNat_inj hxy
                simp only [if_neg (Nat.lt_irrefl _)] at hab
                rcases Nat.lt_trichotomy x.toNat z.toNat with hyz | hyz | hyz
                · simp [hyz]
                · cases char_toNat_inj hyz
                  simp only [if_neg (Nat.lt_irrefl _)] at hbc ⊢
                  exact ih hab hbc
                · simp only [if_neg (Nat.lt_asymm hyz), if_pos hyz] at hbc
                  exact absurd hbc (by simp)
              · simp only [if_neg (Nat.lt_asymm hxy), if_pos hxy] at hab
                exact absurd hab (by simp)

/-- Distinct character lists are ordered one way or the other. -/
lemma charsLt_total :
    ∀ {a b : List Char}, a ≠ b → charsLt a b = true ∨ charsLt b a = true := by
  intro a
  induction a with
  | nil =>
      intro b hne
      cases b with
      | nil => exact absurd rfl hne
      | cons y ys => left; rfl
  | cons x xs ih =>
      intro b hne
      cases b with
      | nil => right; rfl
      | cons y ys =>
          rcases Nat.lt_trichotomy x.toNat y.toNat with hxy | hxy | hxy
          · left; simp [charsLt, hxy]
          · cases char_toNat_inj hxy
            have hne2 : xs ≠ ys := by
              intro h; exact hne (by rw [h])
            rcases ih hne2 with h | h
            · left; simp [charsLt, Nat.lt_irrefl, h]
            · right; simp [charsLt, Nat.lt_irrefl, h]
          · right; simp [charsLt, hxy]

/-- `strLt` is irreflexive. -/
lemma strLt_irrefl (s : String) : strLt s s = false := charsLt_irrefl s.data

/-- `strLt` is transitive. -/
lemma strLt_trans {a b c : String} (h1 : strLt a b = true)
    (h2 : strLt b c = true) : strLt a c = true := charsLt_trans h1 h2

/-- Distinct strings are ordered one way or the other. -/
lemma strLt_total {a b : String} (h : a ≠ b) :
    strLt a b = true ∨ strLt b a = true :=
  charsLt_total (fun hd => h (str_data_inj hd))

/-- `strLt` is asymmetric. -/
lemma strLt_asymm {a b : String} (h : strLt a b = true) : strLt b a = false := by
  cases hba : strLt b a with
  | false => rfl
  | true => exact absurd (strLt_trans h hba) (by simp [strLt_irrefl])

/-- Looking up the key just put returns the value just put. -/
lemma bget_bput_same {V : Type} (k : String) (v : V) (b : Bucket V) :
    bget k (bput k v b) = some v := by
  induction b with
  | nil => simp [bput, bget]
  | cons p rest ih =>
      obtain ⟨k1, v1⟩ := p
      by_cases hk : k = k1
      · simp [bput, hk, bget]
      · by_cases hlt : strLt k k1 = true
        · simp [bput, hk, hlt, bget]
        · simp [bput, hk, hlt, bget, ih]

/-- Putting one key does not disturb lookups of other keys. -/
lemma bget_bput_ne {V : Type} {k1 k2 : String} (h : k1 ≠ k2) (v : V)
    (b : Bucket V) : bget k1 (bput k2 v b) = bget k1 b := by
  induction b with
  | nil => simp [bput, bget, h]
  | cons p rest ih =>
      obtain ⟨k0, v0⟩ := p
      by_cases hk : k2 = k0
      · subst hk
        simp [bput, bget, h]
      · by_cases hlt : strLt k2 k0 = true
        · simp [bput, hk, hlt, bget, h]
        · by_cases hk10 : k1 = k0
          · simp [bput, hk, hlt, bget, hk10]
          · simp [bput, hk, hlt, bget, hk10, ih]

/-- The pair just put is a member of the bucket. -/
lemma mem_bput_self {V : Type} (k : String) (v : V) (b : Bucket V) :
    (k, v) ∈ bput k v b := by
  induction b with
  | nil => simp [bput]
  | cons p rest ih =>
      obtain ⟨k1, v1⟩ := p
      by_cases hk : k = k1
      · simp [bput, hk]
      · by_cases hlt : strLt k k1 = true
        · simp [bput, hk, hlt]
        · simp only [bput, if_neg hk, if_neg hlt]
          exact List.mem_cons_of_mem _ ih

/-- A member of a bucket after a put is the new pair or an old member. -/
lemma mem_bput {V : Type} {q : String × V} {b : Bucket V} {k : String}
    {v : V} (h : q ∈ bput k v b) : q = (k, v) ∨ q ∈ b := by
  induction b with
  | nil =>
      simp [bput] at h
      exact Or.inl h
  | cons p rest ih =>
      obtain ⟨k1, v1⟩ := p
      by_cases hk : k = k1
      · rw [bput, if_pos hk] at h
        rcases List.mem_cons.mp h with h1 | h1
        · exact Or.inl h1
        · exact Or.inr (List.mem_cons_of_mem _ h1)
      · by_cases hlt : strLt k k1 = true
        · rw [bput, if_neg hk, if_pos hlt] at h
          rcases List.mem_cons.mp h with h1 | h1
          · exact Or.inl h1
          · exact Or.inr h1
        · rw [bput, if_neg hk, if_neg hlt] at h
          rcases List.mem_cons.mp h with h1 | h1
          · exact Or.inr (h1 ▸ List.mem_cons_self _ _)
          · rcases ih h1 with h2 | h2
            · exact Or.inl h2
            · exact Or.inr (List.mem_cons_of_mem _ h2)

/-- Pairs with other keys survive a put. -/
lemma mem_bput_of_mem {V : Type} {k0 : String} {v0 : V} {b : Bucket V}
    (hm : (k0, v0) ∈ b) {k : String} (hne : k0 ≠ k) (v : V) :
    (k0, v0) ∈ bput k v b := by
  induction b with
  | nil => simp at hm
  | cons p rest ih =>
      obtain ⟨k1, v1⟩ := p
      by_cases hk : k = k1
      · subst hk
        rcases List.mem_cons.mp hm with h | h
        · exact absurd (congrArg Prod.fst h) hne
        · simp [bput, h]
      · by_cases hlt : strLt k k1 = true
        · simp only [bput, if_neg hk, if_pos hlt]
          exact List.mem_cons_of_mem _ hm
        · simp only [bput, if_neg hk, if_neg hlt]
          rcases List.mem_cons.mp hm with h | h
          · exact h ▸ List.mem_cons_self _ _
          · exact List.mem_cons_of_mem _ (ih h)

/-- The sortedness invariant of a bucket: keys strictly increase. -/
def keysSorted {V : Type} (b : Bucket V) : Prop :=
  List.Pairwise (fun x y => strLt x.1 y.1 = true) b

/-- `bput` preserves bucket sortedness. -/
lemma keysSorted_bput {V : Type} {b : Bucket V} (hs : keysSorted b)
    (k : String) (v : V) : keysSorted (bput k v b) := by
  induction b with
  | nil =>
      simp only [bput, keysSorted]
      exact List.pairwise_singleton _ _
  | cons p rest ih =>
      obtain ⟨k1, v1⟩ := p
      simp only [keysSorted, List.pairwise_cons] at hs
      obtain ⟨hall, hrest⟩ := hs
      by_cases hk : k = k1
      · subst hk
        have hb : bput k v ((k, v1) :: rest) = (k, v) :: rest := by
          simp [bput]
        rw [hb]
        exact List.Pairwise.cons hall hrest
      · by_cases hlt : strLt k k1 = true
        · simp only [bput, if_neg hk, if_pos hlt, keysSorted,
            List.pairwise_cons]
          refine ⟨?_, ?_, hrest⟩
          · intro q hq
            rcases List.mem_cons.mp hq with h | h
            · rw [h]; exact hlt
            · exact strLt_trans hlt (hall q h)
          · exact hall
        · have hgt : strLt k1 k = true := by
            rcases strLt_total (fun h => hk h.symm) with h | h
            · exact h
            · exact absurd h hlt
          simp only [bput, if_neg hk, if_neg hlt, keysSorted,
            List.pairwise_cons]
          refine ⟨?_, ih hrest⟩
          intro q hq
          rcases mem_bput hq with h | h
          · rw [h]; exact hgt
          · exact hall q h

/-- A member of a sorted bucket that passes the scan predicate appears in
the scan; two such members with ordered keys appear in key order. -/
lemma sorted_filter_sublist {V : Type} :
    ∀ {b : Bucket V}, keysSorted b → ∀ {k1 k2 : String} {v1 v2 : V},
      (k1, v1) ∈ b → (k2, v2) ∈ b → strLt k1 k2 = true →
      ∀ (P : String → Bool), P k1 = true → P k2 = true →
      [v1, v2].Sublist ((b.filter fun p => P p.1).map fun p => p.2) := by
  intro b
  induction b with
  | nil =>
      intro _ k1 k2 v1 v2 h1 _ _ _ _ _
      simp at h1
  | cons p rest ih =>
      obtain ⟨k0, v0⟩ := p
      intro hs k1 k2 v1 v2 h1 h2 hlt P hp1 hp2
      simp only [keysSorted, List.pairwise_cons] at hs
      obtain ⟨hall, hrest⟩ := hs
      rcases List.mem_cons.mp h1 with e1 | m1
      · -- the head is (k1, v1); (k2, v2) must be in the tail
        obtain ⟨ek, ev⟩ := Prod.mk.injEq .. ▸ e1
        subst ek
        subst ev
        have m2 : (k2, v2) ∈ rest := by
          rcases List.mem_cons.mp h2 with e2 | m2
          · obtain ⟨ek2, _⟩ := Prod.mk.injEq .. ▸ e2
            rw [ek2] at hlt
            rw [strLt_irrefl] at hlt
            exact absurd hlt (by simp)
          · exact m2
        have hv2 : v2 ∈ ((rest.filter fun p => P p.1).map fun p => p.2) := by
          refine List.mem_map.mpr ⟨(k2, v2), ?_, rfl⟩
          exact List.mem_filter.mpr ⟨m2, hp2⟩
        simp only [List.filter_cons, hp1, List.map_cons]
        exact (List.singleton_sublist.mpr hv2).cons₂ v1
      · -- (k1, v1) is in the tail; so is (k2, v2), since the head precedes k1
        have m2 : (k2, v2) ∈ rest := by
          rcases List.mem_cons.mp h2 with e2 | m2
          · exfalso
            obtain ⟨ek2, _⟩ := Prod.mk.injEq .. ▸ e2
            have hpk : strLt k0 k1 = true := hall (k1, v1) m1
            rw [← ek2] at hpk
            have hkk := strLt_trans hpk hlt
            rw [strLt_irrefl] at hkk
            exact Bool.false_ne_true hkk
          · exact m2
        have tail := ih hrest m1 m2 hlt P hp1 hp2
        cases hP : P k0 with
        | true =>
            simp only [List.filter_cons, hP, List.map_cons]
            exact tail.cons _
        | false =>
            simp only [List.filter_cons, hP]
            exact tail

/-- `lpre` accepts any extension of the given list. -/
lemma lpre_append : ∀ (l m : List Char), lpre l (l ++ m) = true := by
  intro l m
  induction l with
  | nil => rfl
  | cons a as ih => simp [lpre, ih]

/-- A nonempty string has a nonempty character list. -/
lemma data_ne_nil {s : String} (h : s ≠ "") : s.data ≠ [] := by
  intro hd
  exact h (str_data_inj (by simp [hd]))

/-- The versions-bucket key decomposes over the scan prefix. -/
lemma versionKey_data (sid aid vid : String) :
    (versionKey sid aid vid).data = (versionKey sid aid "").data ++ vid.data := by
  simp [versionKey, String.data_append]

/-- A version key with a nonempty version id matches its anchor's scan. -/
lemma keyMatches_versionKey (sid aid vid : String) (h : vid ≠ "") :
    keyMatches (versionKey sid aid "") (versionKey sid aid vid) = true := by
  have hd := versionKey_data sid aid vid
  simp only [keyMatches, Bool.and_eq_true]
  constructor
  · rw [hd]
    exact lpre_append _ _
  · have : (versionKey sid aid vid).length =
        (versionKey sid aid "").length + vid.data.length := by
      show (versionKey sid aid vid).data.length = _
      rw [hd, List.length_append]
      rfl
    rw [decide_eq_true_eq, this]
    have : 0 < vid.data.length :=
      List.length_pos.mpr (data_ne_nil h)
    omega

/-- Re-putting the same key replaces: only the second value survives. -/
lemma bput_bput_same {V : Type} (k : String) (v1 v2 : V) (b : Bucket V) :
    bput k v2 (bput k v1 b) = bput k v2 b := by
  induction b with
  | nil => simp [bput]
  | cons p rest ih =>
      obtain ⟨k1, w⟩ := p
      by_cases hk : k = k1
      · simp [bput, hk]
      · by_cases hlt : strLt k k1 = true
        · simp [bput, hk, hlt]
        · simp only [bput, if_neg hk, if_neg hlt, ih]

/-- The scenario-continuation mesh with bounding-box volume 2. -/
def mesh4 : MeshData := { mesh1 with vertices := [0, 0, 0, 2, 0, 0, 0, 1, 1] }

/-- The scenario-continuation mesh with bounding-box volume 3. -/
def mesh5 : MeshData := { mesh1 with vertices := [0, 0, 0, 3, 0, 0, 0, 1, 1] }

/-- Fault injection making only the anchor-head write transaction fail. -/
def ftsUpdateAnchorFail : Faults := { noFaults with updateAnchor := true }

/-- The graph record of "S1" as stored after the scenario (the record the
engine passes to `processAnchorEvent`). -/
def c3Stag : StagRec :=
  (GetStag c1Store "S1").getD
    { id := "S1", name := "", description := "", createdAt := 0,
      updatedAt := 0, stats := StagStats.zero, metadata := [] }

/-- The engine run of claim C3's counterexample: a fresh mesh event against
the scenario store, with the anchor-head write transaction failing. -/
def c3Run : Store × Option String :=
  processAnchorEvent ftsUpdateAnchorFail 300 c1Store c3Stag "A"
    (mkMeshEvent 6 mesh4)

/-- C3 counterexample: when the anchor-head update sub-step fails, the
event's version write — committed earlier in its own transaction — remains
visible: the anchor's version count grows from 2 to 3 even though the event
failed.  This refutes the claim that a sub-step failure leaves none of the
event's changes visible. -/
theorem c3_partial_commit :
    c3Run.2.isSome = true ∧
    (GetAnchorVersions c1Store "S1" "A").length = 2 ∧
    (GetAnchorVersions c3Run.1 "S1" "A").length = 3 :=
  of_decide_eq_true (by with_unfolding_all rfl)

/-- C3 amended: the dedup decision and the three writes run in separate
bbolt transactions.  When the anchor-head update transaction fails after
the version write committed, the appended version is visible in the store
while the anchor and graph records are untouched, and the event is reported
failed. -/
theorem c3_amended (fts : Faults) (now : Nat) (st : Store) (stag : StagRec)
    (aid : String) (e : SpatialEvent) (a a1 : AnchorRec)
    (hAdd : fts.addVersion = false) (hUpd : fts.updateAnchor = true)
    (hGet : GetAnchor st stag.id aid = some a)
    (hHash : ¬ a.currentHash = CalculateEventHash e)
    (hSig : meshSigFilter e a = some a1) :
    (processAnchorEvent fts now st stag aid e).2.isSome = true ∧
    (processAnchorEvent fts now st stag aid e).1.anchors = st.anchors ∧
    (processAnchorEvent fts now st stag aid e).1.stags = st.stags ∧
    ∃ v, bget (versionKey stag.id aid ("v" ++ toString now))
        (processAnchorEvent fts now st stag aid e).1.versions = some v ∧
      v.hash = CalculateEventHash e := by
  have hrun : processAnchorEvent fts now st stag aid e =
      ({ st with
          versions :=
            bput (versionKey stag.id aid ("v" ++ toString now))
              (if a1.versions = [] then
                { mkAnchorVersion now (CalculateEventHash e) e with
                    changeType := "create" }
              else mkAnchorVersion now (CalculateEventHash e) e)
              st.versions },
        some "storage error") := by
    simp only [processAnchorEvent, hGet, anchorDedupAndAppend, if_neg hHash,
      hSig, AddAnchorVersion, hAdd, Bool.false_eq_true, if_false,
      UpdateAnchor, hUpd, if_true]
    cases hv : a1.versions with
    | nil => simp [mkAnchorVersion]
    | cons x xs => simp [mkAnchorVersion]
  rw [hrun]
  refine ⟨rfl, rfl, rfl, ?_⟩
  refine ⟨_, bget_bput_same _ _ _, ?_⟩
  cases a1.versions with
  | nil => rfl
  | cons x xs => rfl

/-- The anchor record of "A" as stored after the scenario. -/
def c3Anchor : AnchorRec :=
  (GetAnchor c1Store "S1" "A").getD
    { id := "A", stagID := "S1", currentHash := [], versions := [],
      createdAt := 0, updatedAt := 0, lastSessionID := "", lastClientID := "",
      lastDeviceID := "", metadata := [] }

/-- The anchor record after the geometric-signature update of the C3 run. -/
def c3Anchor1 : AnchorRec :=
  (meshSigFilter (mkMeshEvent 6 mesh4) c3Anchor).getD c3Anchor

/-- Witness for `c3_amended` at the concrete C3 input. -/
theorem c3_amended_witness :
    (processAnchorEvent ftsUpdateAnchorFail 300 c1Store c3Stag "A"
      (mkMeshEvent 6 mesh4)).2.isSome = true ∧
    (processAnchorEvent ftsUpdateAnchorFail 300 c1Store c3Stag "A"
      (mkMeshEvent 6 mesh4)).1.anchors = c1Store.anchors ∧
    (processAnchorEvent ftsUpdateAnchorFail 300 c1Store c3Stag "A"
      (mkMeshEvent 6 mesh4)).1.stags = c1Store.stags ∧
    ∃ v, bget (versionKey c3Stag.id "A" ("v" ++ toString 300))
        (processAnchorEvent ftsUpdateAnchorFail 300 c1Store c3Stag "A"
          (mkMeshEvent 6 mesh4)).1.versions = some v ∧
      v.hash = CalculateEventHash (mkMeshEvent 6 mesh4) :=
  c3_amended ftsUpdateAnchorFail 300 c1Store c3Stag "A" (mkMeshEvent 6 mesh4)
    c3Anchor c3Anchor1 rfl rfl
    (of_decide_eq_true (by with_unfolding_all rfl))
    (of_decide_eq_true (by with_unfolding_all rfl))
    (of_decide_eq_true (by with_unfolding_all rfl))

/-- The scenario store after one more appending mesh event at second 200. -/
def c4Store1 : Store := (processEvent noFaults 200 c1Store (mkMeshEvent 4 mesh4)).1

/-- …and after a second, different appending mesh event in the same second. -/
def c4Store2 : Store := (processEvent noFaults 200 c4Store1 (mkMeshEvent 5 mesh5)).1

/-- C4 counterexample: two versions appended one after another within the
same unix second receive the same version id `v200`, and the second `Put`
replaces the first — after both appends the anchor history still holds
three versions, and the frame-4 version is gone (only the frame-5 one is
retrievable).  This refutes both halves of the claim: the ids do not sort
in insertion order (they collide), and an append can replace a previously
stored version. -/
theorem c4_same_second_replaces :
    (GetAnchorVersions c4Store1 "S1" "A").map
      (fun v => (v.versionID, v.frameNumber)) =
      [("v101", 2), ("v102", 3), ("v200", 4)] ∧
    (GetAnchorVersions c4Store2 "S1" "A").map
      (fun v => (v.versionID, v.frameNumber)) =
      [("v101", 2), ("v102", 3), ("v200", 5)] :=
  of_decide_eq_true (by with_unfolding_all rfl)

/-- C4 amended: the engine assigns `version_id = "v" + unix seconds`; two
successive appends both remain retrievable, in append order, provided their
version keys are distinct and ordered (in particular, when they fall in
different seconds of equal digit count); an append whose version id equals
a stored one replaces that version instead of adding to the chain. -/
theorem c4_amended :
    (∀ (now : Nat) (h : Hash) (e : SpatialEvent),
      (mkAnchorVersion now h e).versionID = "v" ++ toString now) ∧
    (∀ (st : Store) (sid aid : String) (v1 v2 : AnchorVersion)
      (st1 st2 : Store), keysSorted st.versions →
      v1.versionID ≠ "" → v2.versionID ≠ "" →
      strLt (versionKey sid aid v1.versionID)
        (versionKey sid aid v2.versionID) = true →
      AddAnchorVersion false st sid aid v1 = .ok st1 →
      AddAnchorVersion false st1 sid aid v2 = .ok st2 →
      [v1, v2].Sublist (GetAnchorVersions st2 sid aid)) ∧
    (∀ (st : Store) (sid aid : String) (v1 v2 : AnchorVersion)
      (st1 st2 : Store), v1.versionID = v2.versionID →
      AddAnchorVersion false st sid aid v1 = .ok st1 →
      AddAnchorVersion false st1 sid aid v2 = .ok st2 →
      st2.versions = bput (versionKey sid aid v2.versionID) v2 st.versions) := by
  refine ⟨fun _ _ _ => rfl, ?_, ?_⟩
  · intro st sid aid v1 v2 st1 st2 hsort hn1 hn2 hlt h1 h2
    simp only [AddAnchorVersion, Bool.false_eq_true, if_false,
      Except.ok.injEq] at h1 h2
    have hkne : versionKey sid aid v1.versionID ≠
        versionKey sid aid v2.versionID := by
      intro hk
      rw [hk, strLt_irrefl] at hlt
      exact Bool.false_ne_true hlt
    have hm1 : (versionKey sid aid v1.versionID, v1) ∈ st2.versions := by
      rw [← h2]
      exact mem_bput_of_mem (by rw [← h1]; exact mem_bput_self _ _ _) hkne _
    have hm2 : (versionKey sid aid v2.versionID, v2) ∈ st2.versions := by
      rw [← h2]
      exact mem_bput_self _ _ _
    have hsort2 : keysSorted st2.versions := by
      rw [← h2, ← h1]
      exact keysSorted_bput (keysSorted_bput hsort _ _) _ _
    exact sorted_filter_sublist hsort2 hm1 hm2 hlt _
      (keyMatches_versionKey sid aid _ hn1)
      (keyMatches_versionKey sid aid _ hn2)
  · intro st sid aid v1 v2 st1 st2 hid h1 h2
    simp only [AddAnchorVersion, Bool.false_eq_true, if_false,
      Except.ok.injEq] at h1 h2
    rw [← h2, ← h1]
    show bput (versionKey sid aid v2.versionID) v2
      (bput (versionKey sid aid v1.versionID) v1 st.versions) = _
    rw [hid]
    exact bput_bput_same _ _ _ _

/-- A version record with the given id and no payload, for the C4 witness. -/
def bareVersion (vid : String) : AnchorVersion :=
  { versionID := vid, hash := [], timestamp := 0, changeType := "update",
    transform := none, meshData := none, poseData := none, cameraData := none,
    depthData := none, pointCloudData := none, lightingData := none,
    eventID := "", sessionID := "", clientID := "", deviceID := "",
    frameNumber := 0, metadata := [] }

/-- Witness for `c4_amended`: two ordered appends into an empty store both
remain retrievable in order. -/
theorem c4_amended_witness :
    (mkAnchorVersion 1000 [] poseEv).versionID = "v" ++ toString 1000 ∧
    [bareVersion "v1000", bareVersion "v1001"].Sublist
      (GetAnchorVersions
        ({ emptyStore with
            versions := bput (versionKey "S" "A" "v1001") (bareVersion "v1001")
              (bput (versionKey "S" "A" "v1000") (bareVersion "v1000") []) })
        "S" "A") := by
  constructor
  · exact c4_amended.1 1000 [] poseEv
  · exact c4_amended.2.1 emptyStore "S" "A" (bareVersion "v1000")
      (bareVersion "v1001") _ _ List.Pairwise.nil
      (of_decide_eq_true (by with_unfolding_all rfl))
      (of_decide_eq_true (by with_unfolding_all rfl))
      (of_decide_eq_true (by with_unfolding_all rfl)) rfl rfl

/-- C5: the mesh geometric-signature filter, for a mesh event addressed at
an existing anchor whose content hash differs from the anchor's
`current_hash`.  If the stored `geom_signature` equals the signature of the
event's mesh, the event is a no-op: the store is completely unchanged (in
particular the stored signature is untouched) and no version is appended.
Otherwise the append proceeds: afterwards the stored anchor's
`geom_signature` equals the new signature and a version with the event's
hash is stored under the event's version key. -/
theorem c5_geometry_filter (now : Nat) (st : Store) (stag : StagRec)
    (aid : String) (e : SpatialEvent) (m : MeshData) (a : AnchorRec)
    (hType : e.eventType = "mesh") (hMesh : e.meshData = some m)
    (hGet : GetAnchor st stag.id aid = some a)
    (hsid : a.stagID = stag.id) (hid : a.id = aid)
    (hHash : ¬ a.currentHash = CalculateEventHash e) :
    (bget "geom_signature" a.metadata =
        some (.str (CalculateGeometrySignature m)) →
      processAnchorEvent noFaults now st stag aid e = (st, none)) ∧
    (¬ bget "geom_signature" a.metadata =
        some (.str (CalculateGeometrySignature m)) →
      ∃ rec1, bget (anchorKey stag.id aid)
          (processAnchorEvent noFaults now st stag aid e).1.anchors =
            some rec1 ∧
        bget "geom_signature" rec1.metadata =
          some (.str (CalculateGeometrySignature m)) ∧
        ∃ v, bget (versionKey stag.id aid ("v" ++ toString now))
            (processAnchorEvent noFaults now st stag aid e).1.versions =
              some v ∧
          v.hash = CalculateEventHash e) := by
  constructor
  · intro hsig
    have hSigNone : meshSigFilter e a = none := by
      simp only [meshSigFilter, hType, if_true, hMesh, hsig, if_pos]
    simp only [processAnchorEvent, hGet, anchorDedupAndAppend, if_neg hHash,
      hSigNone]
  · intro hsig
    have hSigSome : meshSigFilter e a =
        some { a with
          metadata :=
            bput "geom_signature"
              (MetaVal.str (CalculateGeometrySignature m)) a.metadata } := by
      simp only [meshSigFilter, hType, if_true, hMesh, if_neg hsig]
    have hbA : (bget (anchorKey stag.id aid) st.anchors).isSome = true := by
      cases hb : bget (anchorKey stag.id aid) st.anchors with
      | none =>
          rw [GetAnchor, hb] at hGet
          exact absurd hGet (by simp)
      | some a0 => rfl
    -- run the append path
    simp only [processAnchorEvent, hGet, anchorDedupAndAppend, if_neg hHash,
      hSigSome, AddAnchorVersion, Bool.false_eq_true, if_false, UpdateAnchor,
      noFaults]
    rw [if_pos (by simpa [hsid, hid] using hbA)]
    simp only [UpdateStagStats, Bool.false_eq_true, if_false]
    cases hstg : bget stag.id st.stags with
    | none =>
        simp only [hstg, hsid, hid]
        cases hv : a.versions with
        | nil =>
            exact ⟨_, bget_bput_same _ _ _, bget_bput_same _ _ _, _,
              bget_bput_same _ _ _, rfl⟩
        | cons x xs =>
            exact ⟨_, bget_bput_same _ _ _, bget_bput_same _ _ _, _,
              bget_bput_same _ _ _, rfl⟩
    | some rec0 =>
        simp only [hstg, hsid, hid]
        cases hv : a.versions with
        | nil =>
            exact ⟨_, bget_bput_same _ _ _, bget_bput_same _ _ _, _,
              bget_bput_same _ _ _, rfl⟩
        | cons x xs =>
            exact ⟨_, bget_bput_same _ _ _, bget_bput_same _ _ _, _,
              bget_bput_same _ _ _, rfl⟩

/-- The anchor record of "A" as stored after the frame-4 append (it carries
`geom_signature = "A_3_3_2.000"`, the signature of `mesh4`). -/
def c5Anchor : AnchorRec :=
  (GetAnchor c4Store1 "S1" "A").getD
    { id := "A", stagID := "S1", currentHash := [], versions := [],
      createdAt := 0, updatedAt := 0, lastSessionID := "", lastClientID := "",
      lastDeviceID := "", metadata := [] }

/-- Witness for `c5_geometry_filter`: a frame-9 event with the same mesh as
frame 4 has a different content hash (the frame number is hashed) but the
same geometric signature, so the engine run is a complete no-op. -/
theorem c5_geometry_filter_witness :
    processAnchorEvent noFaults 400 c4Store1 c3Stag "A" (mkMeshEvent 9 mesh4) =
      (c4Store1, none) :=
  (c5_geometry_filter 400 c4Store1 c3Stag "A" (mkMeshEvent 9 mesh4) mesh4
      c5Anchor rfl rfl (of_decide_eq_true (by with_unfolding_all rfl))
      (of_decide_eq_true (by with_unfolding_all rfl))
      (of_decide_eq_true (by with_unfolding_all rfl))
      (of_decide_eq_true (by with_unfolding_all rfl))).1
    (of_decide_eq_true (by with_unfolding_all rfl))

/-- C6 counterexample: `HandleGetAnchorHistory` serves a `limit=0` request
with the default limit 50 — it does not fail with InvalidRequest (the
handler has no such error path; the result type of the model reflects that
the store read cannot fail) — and serves a `limit=1001` request with the
default 50 as well, not clamped to 1000. -/
theorem c6_limit_not_validated :
    (HandleGetAnchorHistory emptyStore "S" "A" none (some 0)).limit = 50 ∧
    (HandleGetAnchorHistory emptyStore "S" "A" none (some 1001)).limit = 50 ∧
    ¬ (HandleGetAnchorHistory emptyStore "S" "A" none
        (some 1001)).limit = 1000 := by
  decide

/-- C6 amended: the handler always serves the request; `limit` defaults to
50 when unspecified, a supplied value is honoured only when it lies in
`(0, 1000]`, and any out-of-range value (including 0 and values above
1000) silently falls back to the default 50; `offset` is passed through. -/
theorem c6_amended (st : Store) (sid aid : String) (offP limP : Option Int) :
    (HandleGetAnchorHistory st sid aid offP limP).limit =
      (match limP with
        | none => 50
        | some p => if 0 < p ∧ p ≤ 1000 then p else 50) ∧
    (HandleGetAnchorHistory st sid aid offP limP).offset =
      (match offP with
        | none => 0
        | some p => p) ∧
    (HandleGetAnchorHistory st sid aid offP limP).total =
      (scanVersions st sid aid).length := by
  refine ⟨?_, ?_, rfl⟩
  · cases limP with
    | none => rfl
    | some p => rfl
  · cases offP with
    | none => rfl
    | some p => rfl

/-- `getD` on an all-zero replicated list is zero (in or out of range). -/
lemma getD_replicate_zero (n : Nat) :
    ∀ k : Nat, (List.replicate n (0 : ℚ)).getD k 0 = 0 := by
  induction n with
  | zero => intro k; cases k <;> rfl
  | succ n ih =>
      intro k
      cases k with
      | zero => rfl
      | succ k => exact ih k

/-- The sampling loop only reads positions `i + 30j + {0,1,2}`: two lists of
equal length that agree on every position whose residue mod 30 is at most 2
produce the same sampled feed (for any start index that is a multiple
of 30). -/
lemma strideSample3_congr (xs ys : List ℚ) (hlen : xs.length = ys.length)
    (hsame : ∀ n : Nat, n % 30 ≤ 2 → xs.getD n 0 = ys.getD n 0) :
    ∀ (c i : Nat), i % 30 = 0 → strideSample3 xs c i = strideSample3 ys c i := by
  intro c
  induction c with
  | zero => intro i _; rfl
  | succ c ih =>
      intro i hi
      rw [strideSample3, strideSample3, ← hlen]
      have h0 : xs.getD i 0 = ys.getD i 0 := hsame i (by omega)
      have h1 : xs.getD (i + 1) 0 = ys.getD (i + 1) 0 := hsame (i + 1) (by omega)
      have h2 : xs.getD (i + 2) 0 = ys.getD (i + 2) 0 := hsame (i + 2) (by omega)
      rw [h0, h1, h2, ih (i + 30) (by omega)]

/-- A mesh with 1001 vertices, all zero. -/
def bigMeshA : MeshData := { mesh1 with vertices := List.replicate 3003 0 }

/-- `bigMeshA` with vertex 1 (a non-sampled vertex) changed. -/
def bigMeshB : MeshData :=
  { mesh1 with vertices := 0 :: 0 :: 0 :: 1 :: List.replicate 2999 0 }

/-- `bigMeshA` with vertex 0 (the first sampled vertex) changed. -/
def bigMeshC : MeshData :=
  { mesh1 with vertices := 2 :: List.replicate 3002 0 }

/-- Positions other than 3 of `bigMeshB`'s vertex array are zero. -/
lemma getD_bigMeshB (n : Nat) (hn : ¬ n = 3) :
    bigMeshB.vertices.getD n 0 = 0 := by
  match n with
  | 0 => rfl
  | 1 => rfl
  | 2 => rfl
  | 3 => exact absurd rfl hn
  | Nat.succ (Nat.succ (Nat.succ (Nat.succ k))) =>
      show (List.replicate 2999 (0 : ℚ)).getD k 0 = 0
      exact getD_replicate_zero 2999 k

/-- The vertex array of `bigMeshA`, exposed for rewriting. -/
lemma bigMeshA_vertices : bigMeshA.vertices = List.replicate 3003 0 := rfl

/-- The vertex array of `bigMeshB`, exposed for rewriting. -/
lemma bigMeshB_vertices :
    bigMeshB.vertices = 0 :: 0 :: 0 :: 1 :: List.replicate 2999 0 := rfl

/-- The vertex array of `bigMeshC`, exposed for rewriting. -/
lemma bigMeshC_vertices : bigMeshC.vertices = 2 :: List.replicate 3002 0 := rfl

/-- `bigMeshA` has 3003 vertex coordinates. -/
lemma bigMeshA_len : bigMeshA.vertices.length = 3003 := by
  rw [bigMeshA_vertices, List.length_replicate]

/-- `bigMeshB` has 3003 vertex coordinates. -/
lemma bigMeshB_len : bigMeshB.vertices.length = 3003 := by
  rw [bigMeshB_vertices]
  simp only [List.length_cons, List.length_replicate]

/-- `bigMeshC` has 3003 vertex coordinates. -/
lemma bigMeshC_len : bigMeshC.vertices.length = 3003 := by
  rw [bigMeshC_vertices]
  simp only [List.length_cons, List.length_replicate]

/-- C7: the mesh vertex sampling rule.  A mesh with at most 1000 vertices
feeds every vertex to the hash; a mesh with more than 1000 vertices feeds
only every 10th vertex (a 30-float stride).  Consequently two such large
meshes, alike in anchor id and array lengths, have different hashes
whenever their first sampled vertex differs — and there exist two distinct
large meshes, differing only in a non-sampled vertex, with equal hashes
(the documented accepted collision). -/
theorem c7_vertex_sampling :
    (∀ m : MeshData, m.vertices.length / 3 ≤ 1000 →
      meshVertexFeed m = m.vertices.map FeedTok.f64) ∧
    (∀ m : MeshData, 1000 < m.vertices.length / 3 →
      meshVertexFeed m =
        strideSample3 m.vertices ((m.vertices.length + 29) / 30) 0) ∧
    (∀ m1 m2 : MeshData, m1.anchorID = m2.anchorID →
      m1.vertices.length = m2.vertices.length →
      m1.faces.length = m2.faces.length →
      1000 < m1.vertices.length / 3 →
      ¬ m1.vertices.getD 0 0 = m2.vertices.getD 0 0 →
      ¬ hashMeshData m1 = hashMeshData m2) ∧
    (∃ m1 m2 : MeshData, 1000 < m1.vertices.length / 3 ∧
      m1.vertices.length = m2.vertices.length ∧ ¬ m1 = m2 ∧
      hashMeshData m1 = hashMeshData m2) := by
  refine ⟨?_, ?_, ?_, ?_⟩
  · intro m h
    rw [meshVertexFeed, if_neg (Nat.not_lt.mpr h)]
  · intro m h
    rw [meshVertexFeed, if_pos h]
  · intro m1 m2 ha hlen hflen hbig hne heq
    have h2a : 2 < m1.vertices.length := by omega
    obtain ⟨c, hc⟩ : ∃ c, (m1.vertices.length + 29) / 30 = c + 1 :=
      ⟨(m1.vertices.length + 29) / 30 - 1, by omega⟩
    have hbig2 : 1000 < m2.vertices.length / 3 := hlen ▸ hbig
    have h2b : 2 < m2.vertices.length := hlen ▸ h2a
    have hc2 : (m2.vertices.length + 29) / 30 = c + 1 := hlen ▸ hc
    rw [hashMeshData, hashMeshData, meshVertexFeed, meshVertexFeed,
      if_pos hbig, if_pos hbig2, hc, hc2, strideSample3, strideSample3,
      if_pos (by omega : 0 + 2 < m1.vertices.length),
      if_pos (by omega : 0 + 2 < m2.vertices.length)] at heq
    simp only [List.cons_append, List.cons.injEq] at heq
    exact hne (FeedTok.f64.inj heq.2.2.2.1)
  · refine ⟨bigMeshA, bigMeshB, ?_, ?_, ?_, ?_⟩
    · rw [bigMeshA_len]
      omega
    · rw [bigMeshA_len, bigMeshB_len]
    · intro h
      have h3 := congrArg (fun m : MeshData => m.vertices.getD 3 0) h
      simp only at h3
      rw [bigMeshA_vertices, getD_replicate_zero] at h3
      have hB3 : bigMeshB.vertices.getD 3 0 = 1 := rfl
      rw [hB3] at h3
      exact absurd h3 (by norm_num)
    · have hlen : bigMeshA.vertices.length = bigMeshB.vertices.length := by
        rw [bigMeshA_len, bigMeshB_len]
      have hbigA : 1000 < bigMeshA.vertices.length / 3 := by
        rw [bigMeshA_len]
        omega
      have hbigB : 1000 < bigMeshB.vertices.length / 3 := hlen ▸ hbigA
      rw [hashMeshData, hashMeshData, meshVertexFeed, meshVertexFeed,
        if_pos hbigA, if_pos hbigB, hlen]
      have hs := strideSample3_congr bigMeshA.vertices bigMeshB.vertices hlen
        (fun n hn => by
          rw [bigMeshA_vertices, getD_replicate_zero,
            getD_bigMeshB n (by omega)])
        ((bigMeshB.vertices.length + 29) / 30) 0 rfl
      rw [hs]
      rfl

/-- Witness for `c7_vertex_sampling`: the scenario mesh (3 vertices) feeds
all vertices, and the two large meshes differing in the first sampled
vertex hash differently. -/
theorem c7_vertex_sampling_witness :
    meshVertexFeed mesh1 = mesh1.vertices.map FeedTok.f64 ∧
    ¬ hashMeshData bigMeshA = hashMeshData bigMeshC :=
  ⟨c7_vertex_sampling.1 mesh1 (by decide),
    c7_vertex_sampling.2.2.1 bigMeshA bigMeshC rfl
      (by rw [bigMeshA_len, bigMeshC_len]) rfl
      (by rw [bigMeshA_len]
          omega)
      (by intro h
          rw [bigMeshA_vertices, getD_replicate_zero] at h
          have hC0 : bigMeshC.vertices.getD 0 0 = 2 := rfl
          rw [hC0] at h
          exact absurd h (by norm_num))⟩

/-- A camera payload: 640×480 jpeg with 3 image bytes and unit-like
intrinsics. -/
def camBase : CameraData :=
  { imageData := [1, 2, 3], width := 640, height := 480, format := "jpeg",
    intrinsics := [500, 0, 320, 0, 500, 240, 0, 0, 1], distortion := [],
    transform := none, timestamp := 0, exposure := 0, iso := 0,
    focalLength := 0 }

/-- `camBase` with different image bytes of the same length, a different
capture timestamp and different exposure metadata. -/
def camOther : CameraData :=
  { camBase with imageData := [9, 9, 9], timestamp := 77, exposure := 2 }

/-- A camera event with the given frame number and camera payload. -/
def mkCamEvent (frame : Nat) (c : CameraData) : SpatialEvent :=
  { eventID := "c" ++ toString frame, eventType := "camera",
    timestamp := frame, serverTime := frame, sessionID := "S1",
    clientID := "C1", deviceID := "D1", frameNumber := frame,
    transform := none, poseData := none, meshData := none,
    cameraData := some c, depthData := none, pointCloudData := none,
    lightingData := none, metadata := [] }

/-- C8 counterexample: two camera events with byte-identical camera
payloads — hence identical width, height, format, image-data length and
intrinsics — but different frame numbers hash differently, because
`CalculateEventHash` feeds the frame number before the camera bytes.  The
claim quantifies over every two camera events agreeing only on those five
fields, so it is refuted. -/
theorem c8_frame_number_in_hash :
    (mkCamEvent 1 camBase).cameraData = (mkCamEvent 2 camBase).cameraData ∧
    ¬ CalculateEventHash (mkCamEvent 1 camBase) =
      CalculateEventHash (mkCamEvent 2 camBase) := by
  decide

/-- C8 amended: two camera events agreeing on frame number, width, height,
format, image-data length, intrinsics, the camera transform and the
top-level transform have equal content hashes, whatever their image bytes
(and whatever their distortion, capture timestamp, exposure, ISO and focal
length, which are never hashed). -/
theorem c8_amended (e1 e2 : SpatialEvent) (c1 c2 : CameraData)
    (h1 : e1.eventType = "camera") (h2 : e2.eventType = "camera")
    (hc1 : e1.cameraData = some c1) (hc2 : e2.cameraData = some c2)
    (hf : e1.frameNumber = e2.frameNumber)
    (hw : c1.width = c2.width) (hh : c1.height = c2.height)
    (hfmt : c1.format = c2.format)
    (hlen : c1.imageData.length = c2.imageData.length)
    (hintr : c1.intrinsics = c2.intrinsics)
    (hct : c1.transform = c2.transform)
    (het : e1.transform = e2.transform) :
    CalculateEventHash e1 = CalculateEventHash e2 := by
  have hcam : hashCameraData c1 = hashCameraData c2 := by
    simp only [hashCameraData, hw, hh, hfmt, hlen, hintr, hct]
  simp [CalculateEventHash, h1, h2, hc1, hc2, hf, het, hcam]

/-- Witness for `c8_amended`: the two frame-5 camera events with different
image bytes and capture metadata hash identically. -/
theorem c8_amended_witness :
    CalculateEventHash (mkCamEvent 5 camBase) =
      CalculateEventHash (mkCamEvent 5 camOther) :=
  c8_amended (mkCamEvent 5 camBase) (mkCamEvent 5 camOther) camBase camOther
    rfl rfl rfl rfl rfl rfl rfl rfl rfl rfl rfl rfl

/-- Joining two lists around a separator that occurs in neither left part
is injective. -/
lemma append_sep_inj {α : Type} (c : α) :
    ∀ (l1 l2 r1 r2 : List α), c ∉ l1 → c ∉ l2 →
      l1 ++ c :: r1 = l2 ++ c :: r2 → l1 = l2 ∧ r1 = r2 := by
  intro l1
  induction l1 with
  | nil =>
      intro l2 r1 r2 _ hc2 h
      cases l2 with
      | nil =>
          simp only [List.nil_append, List.cons.injEq] at h
          exact ⟨rfl, h.2⟩
      | cons y ys =>
          simp only [List.nil_append, List.cons_append, List.cons.injEq] at h
          exact absurd (h.1 ▸ List.mem_cons_self y ys) (h.1 ▸ fun hm => hc2 (h.1 ▸ List.mem_cons_self y ys))
  | cons x xs ih =>
      intro l2 r1 r2 hc1 hc2 h
      cases l2 with
      | nil =>
          simp only [List.cons_append, List.nil_append, List.cons.injEq] at h
          exact absurd (h.1 ▸ List.mem_cons_self x xs) (fun hm => hc1 (h.1 ▸ List.mem_cons_self x xs))
      | cons y ys =>
          simp only [List.cons_append, List.cons.injEq] at h
          obtain ⟨hxy, hrest⟩ := h
          have := ih ys r1 r2 (fun hm => hc1 (List.mem_cons_of_mem _ hm))
            (fun hm => hc2 (List.mem_cons_of_mem _ hm)) hrest
          exact ⟨by rw [hxy, this.1], this.2⟩

/-- The anchors-bucket key is injective on pairs whose graph id is
':'-free. -/
lemma anchorKey_inj {g1 a1 g2 a2 : String}
    (h1 : ':' ∉ g1.data) (h2 : ':' ∉ g2.data)
    (h : anchorKey g1 a1 = anchorKey g2 a2) : g1 = g2 ∧ a1 = a2 := by
  have hd := congrArg String.data h
  rw [anchorKey, anchorKey, String.data_append, String.data_append,
    String.data_append, String.data_append] at hd
  have hcol : (":" : String).data = [':'] := rfl
  rw [hcol, List.append_assoc, List.append_assoc, List.singleton_append,
    List.singleton_append] at hd
  obtain ⟨hg, ha⟩ := append_sep_inj ':' g1.data g2.data a1.data a2.data h1 h2 hd
  exact ⟨str_data_inj hg, str_data_inj ha⟩

/-- An anchor record whose id contains the ':' separator. -/
def aliasAnchor : AnchorRec :=
  { id := "b:c", stagID := "a", currentHash := [], versions := [],
    createdAt := 0, updatedAt := 0, lastSessionID := "", lastClientID := "",
    lastDeviceID := "", metadata := [] }

/-- The store after creating `aliasAnchor` (graph "a", anchor "b:c") in an
empty store. -/
def c9AliasStore : Store :=
  ((CreateAnchor false 1 emptyStore aliasAnchor).toOption.getD
    (emptyStore, aliasAnchor)).1

/-- C9 counterexample: the anchor keys of the distinct pairs
`("a", "b:c")` and `("a:b", "c")` coincide, and reading anchor
`("a:b", "c")` returns the record stored for `("a", "b:c")` — reading one
entity reads the other, so the key encoding is not injective for ids
containing ':'. -/
theorem c9_colon_aliasing :
    anchorKey "a" "b:c" = anchorKey "a:b" "c" ∧
    ¬ (("a", "b:c") : String × String) = ("a:b", "c") ∧
    (GetAnchor c9AliasStore "a:b" "c").isSome = true ∧
    GetAnchor c9AliasStore "a:b" "c" = GetAnchor c9AliasStore "a" "b:c" := by
  decide

/-- C9 amended: distinct graph ids never alias (graphs are keyed by the id
alone), and the anchor key `(graph_id + ":" + id)` is injective — so
creating one anchor leaves reads of every other anchor unchanged — provided
graph ids contain no ':'; ids containing ':' can alias (see the
counterexample). -/
theorem c9_amended :
    (∀ (fail : Bool) (now : Nat) (st : Store) (stag : StagRec)
      (st2 : Store) (r : StagRec) (g : String),
      CreateStag fail now st stag = .ok (st2, r) → ¬ g = stag.id →
      GetStag st2 g = GetStag st g) ∧
    (∀ g1 a1 g2 a2 : String, ':' ∉ g1.data → ':' ∉ g2.data →
      anchorKey g1 a1 = anchorKey g2 a2 → g1 = g2 ∧ a1 = a2) ∧
    (∀ (fail : Bool) (now : Nat) (st : Store) (a : AnchorRec)
      (st2 : Store) (r : AnchorRec) (g1 x1 : String),
      CreateAnchor fail now st a = .ok (st2, r) →
      ':' ∉ g1.data → ':' ∉ a.stagID.data →
      ¬ (g1 = a.stagID ∧ x1 = a.id) →
      GetAnchor st2 g1 x1 = GetAnchor st g1 x1) := by
  refine ⟨?_, fun g1 a1 g2 a2 h1 h2 h => anchorKey_inj h1 h2 h, ?_⟩
  · intro fail now st stag st2 r g hC hg
    cases fail with
    | true => simp [CreateStag] at hC
    | false =>
        rw [CreateStag] at hC
        cases hb : bget stag.id st.stags with
        | some v =>
            rw [hb] at hC
            simp at hC
        | none =>
            rw [hb] at hC
            simp only [Bool.false_eq_true, if_false, Option.isSome_none,
              Except.ok.injEq, Prod.mk.injEq] at hC
            rw [← hC.1]
            show bget g (bput stag.id _ st.stags) = bget g st.stags
            exact bget_bput_ne hg _ _
  · intro fail now st a st2 r g1 x1 hC h1 h2 hne
    cases fail with
    | true => simp [CreateAnchor] at hC
    | false =>
        rw [CreateAnchor] at hC
        cases hb : bget (anchorKey a.stagID a.id) st.anchors with
        | some v =>
            rw [hb] at hC
            simp at hC
        | none =>
            rw [hb] at hC
            simp only [Bool.false_eq_true, if_false, Option.isSome_none,
              Except.ok.injEq, Prod.mk.injEq] at hC
            rw [← hC.1]
            have hkne : anchorKey g1 x1 ≠ anchorKey a.stagID a.id := by
              intro hk
              exact hne (anchorKey_inj h1 h2 hk)
            show (bget (anchorKey g1 x1)
                (bput (anchorKey a.stagID a.id) _ st.anchors)).map _ =
              (bget (anchorKey g1 x1) st.anchors).map _
            rw [bget_bput_ne hkne]
            rfl

/-- An anchor record with ':'-free ids, for the C9 witness. -/
def c9NewAnchor : AnchorRec :=
  { id := "b", stagID := "g", currentHash := [], versions := [],
    createdAt := 0, updatedAt := 0, lastSessionID := "", lastClientID := "",
    lastDeviceID := "", metadata := [] }

/-- The result of creating `c9NewAnchor` in an empty store. -/
def c9Created : Store × AnchorRec :=
  (CreateAnchor false 1 emptyStore c9NewAnchor).toOption.getD
    (emptyStore, c9NewAnchor)

/-- Witness for `c9_amended`: creating anchor `("g", "b")` leaves the read
of the distinct anchor `("h", "x")` unchanged. -/
theorem c9_amended_witness :
    GetAnchor c9Created.1 "h" "x" = GetAnchor emptyStore "h" "x" :=
  c9_amended.2.2 false 1 emptyStore c9NewAnchor c9Created.1 c9Created.2
    "h" "x" rfl (by decide) (by decide) (by decide)

/-- A successful `bget` witnesses membership. -/
lemma bget_mem {V : Type} {k : String} {v : V} :
    ∀ {b : Bucket V}, bget k b = some v → (k, v) ∈ b := by
  intro b
  induction b with
  | nil => intro h; simp [bget] at h
  | cons p rest ih =>
      obtain ⟨k1, v1⟩ := p
      intro h
      by_cases hk : k = k1
      · rw [bget, if_pos hk] at h
        subst hk
        rw [Option.some.injEq] at h
        rw [h]
        exact List.mem_cons_self _ _
      · rw [bget, if_neg hk] at h
        exact List.mem_cons_of_mem _ (ih h)

/-- The statistics update never touches `anchor_count`. -/
lemma bumpStagStats_anchorCount (now : Nat) (stag : StagRec)
    (e : SpatialEvent) :
    (bumpStagStats now stag e).anchorCount = stag.stats.anchorCount := by
  rw [bumpStagStats]
  split <;> split <;> split <;> rfl

/-- `processAnchorEvent` either leaves the stags bucket unchanged or
replaces the processed stag's record with one whose statistics are
`bumpStagStats` of the passed stag. -/
lemma processAnchorEvent_stags (fts : Faults) (now : Nat) (st : Store)
    (stag : StagRec) (aid : String) (e : SpatialEvent) :
    (processAnchorEvent fts now st stag aid e).1.stags = st.stags ∨
    ∃ rec0, bget stag.id st.stags = some rec0 ∧
      (processAnchorEvent fts now st stag aid e).1.stags =
        bput stag.id
          { rec0 with stats := bumpStagStats now stag e, updatedAt := now }
          st.stags := by
  have core : ∀ (st0 : Store) (h : Hash) (a : AnchorRec),
      (anchorDedupAndAppend fts now st0 stag aid e h a).1.stags = st0.stags ∨
      ∃ rec0, bget stag.id st0.stags = some rec0 ∧
        (anchorDedupAndAppend fts now st0 stag aid e h a).1.stags =
          bput stag.id
            { rec0 with stats := bumpStagStats now stag e, updatedAt := now }
            st0.stags := by
    intro st0 h a
    rw [anchorDedupAndAppend]
    by_cases hcur : a.currentHash = h
    · rw [if_pos hcur]
      exact Or.inl (by trivial)
    · rw [if_neg hcur]
      cases hsf : meshSigFilter e a with
      | none => exact Or.inl (by trivial)
      | some a1 =>
          cases hA : fts.addVersion with
          | true =>
              simp only [AddAnchorVersion, if_true]
              exact Or.inl (by trivial)
          | false =>
              simp only [AddAnchorVersion, Bool.false_eq_true, if_false]
              cases hU : fts.updateAnchor with
              | true =>
                  simp only [UpdateAnchor, if_true]
                  exact Or.inl (by trivial)
              | false =>
                  simp only [UpdateAnchor, Bool.false_eq_true, if_false]
                  cases hex : (bget (anchorKey a1.stagID a1.id)
                      st0.anchors).isSome with
                  | false =>
                      simp only [hex, Bool.false_eq_true, if_false]
                      exact Or.inl (by trivial)
                  | true =>
                      simp only [hex, if_true]
                      cases hS : fts.updateStats with
                      | true =>
                          simp only [UpdateStagStats, if_true]
                          exact Or.inl (by trivial)
                      | false =>
                          simp only [UpdateStagStats, Bool.false_eq_true,
                            if_false]
                          cases hb : bget stag.id st0.stags with
                          | none =>
                              simp only [hb]
                              exact Or.inl (by trivial)
                          | some rec0 =>
                              simp only [hb]
                              exact Or.inr ⟨rec0, rfl, rfl⟩
  rw [processAnchorEvent]
  cases hg : GetAnchor st stag.id aid with
  | some anchor => exact core st _ anchor
  | none =>
      cases hcf : fts.createAnchor with
      | true =>
          simp only [CreateAnchor, if_true]
          exact Or.inl (by trivial)
      | false =>
          simp only [CreateAnchor, Bool.false_eq_true, if_false]
          cases hex : (bget (anchorKey stag.id aid) st.anchors).isSome with
          | true =>
              simp only [hex, if_true]
              exact Or.inl (by trivial)
          | false =>
              simp only [hex, Bool.false_eq_true, if_false]
              exact core _ _ _

/-- `processAnchorEvent` preserves the all-stags zero-`anchor_count`
invariant when the passed stag has `anchor_count = 0`. -/
lemma processAnchorEvent_anchorCount (fts : Faults) (now : Nat) (st : Store)
    (stag : StagRec) (aid : String) (e : SpatialEvent)
    (hinv : ∀ p ∈ st.stags, (p : String × StagRec).2.stats.anchorCount = 0)
    (hstag : stag.stats.anchorCount = 0) :
    ∀ p ∈ (processAnchorEvent fts now st stag aid e).1.stags,
      (p : String × StagRec).2.stats.anchorCount = 0 := by
  rcases processAnchorEvent_stags fts now st stag aid e with h | ⟨rec0, _, h⟩
  · rw [h]
    exact hinv
  · rw [h]
    intro p hp
    rcases mem_bput hp with hnew | hold
    · rw [hnew]
      show (bumpStagStats now stag e).anchorCount = 0
      rw [bumpStagStats_anchorCount]
      exact hstag
    · exact hinv p hold

/-- `dispatchEvent` preserves the invariant. -/
lemma dispatchEvent_anchorCount (fts : Faults) (now : Nat) (st : Store)
    (stag : StagRec) (e : SpatialEvent)
    (hinv : ∀ p ∈ st.stags, (p : String × StagRec).2.stats.anchorCount = 0)
    (hstag : stag.stats.anchorCount = 0) :
    ∀ p ∈ (dispatchEvent fts now st stag e).1.stags,
      (p : String × StagRec).2.stats.anchorCount = 0 := by
  rw [dispatchEvent]
  split
  · rw [processMeshEvent]
    cases e.meshData with
    | none => exact hinv
    | some m => exact processAnchorEvent_anchorCount _ _ _ _ _ _ hinv hstag
  split
  · rw [processPoseEvent]
    cases e.poseData with
    | none => exact hinv
    | some p => exact processAnchorEvent_anchorCount _ _ _ _ _ _ hinv hstag
  split
  · rw [processCameraEvent]
    cases e.cameraData with
    | none => exact hinv
    | some c => exact processAnchorEvent_anchorCount _ _ _ _ _ _ hinv hstag
  split
  · rw [processDepthEvent]
    cases e.depthData with
    | none => exact hinv
    | some d => exact processAnchorEvent_anchorCount _ _ _ _ _ _ hinv hstag
  split
  · rw [processPointCloudEvent]
    cases e.pointCloudData with
    | none => exact hinv
    | some pc => exact processAnchorEvent_anchorCount _ _ _ _ _ _ hinv hstag
  split
  · rw [processLightingEvent]
    cases e.lightingData with
    | none => exact hinv
    | some l => exact processAnchorEvent_anchorCount _ _ _ _ _ _ hinv hstag
  · rw [processGenericEvent]
    exact processAnchorEvent_anchorCount _ _ _ _ _ _ hinv hstag

/-- `processEvent` preserves the invariant. -/
lemma processEvent_anchorCount (fts : Faults) (now : Nat) (st : Store)
    (e : SpatialEvent)
    (hinv : ∀ p ∈ st.stags, (p : String × StagRec).2.stats.anchorCount = 0) :
    ∀ p ∈ (processEvent fts now st e).1.stags,
      (p : String × StagRec).2.stats.anchorCount = 0 := by
  rw [processEvent]
  cases hg : GetStag st (if e.sessionID = "" then "default" else e.sessionID) with
  | some stag =>
      exact dispatchEvent_anchorCount _ _ _ _ _ hinv (hinv _ (bget_mem hg))
  | none =>
      cases hcf : fts.createStag with
      | true =>
          simp only [CreateStag, if_true]
          exact hinv
      | false =>
          simp only [CreateStag, Bool.false_eq_true, if_false]
          rw [GetStag] at hg
          rw [hg]
          simp only [Option.isSome_none, Bool.false_eq_true, if_false]
          refine dispatchEvent_anchorCount _ _ _ _ _ ?_ rfl
          intro p hp
          rcases mem_bput hp with hnew | hold
          · rw [hnew]
            rfl
          · exact hinv p hold

/-- C10: after any finite ingestion sequence from the empty store, every
stored graph's `stats.anchor_count` is 0 — no code path ever increments it
(the only statistics writes go through `bumpStagStats`, which never touches
`anchor_count`, and freshly created stags start from the zero value). -/
theorem c10_anchor_count_always_zero :
    ∀ (evs : List (Nat × SpatialEvent)) (p : String × StagRec),
      p ∈ (ingestAll evs emptyStore).stags → p.2.stats.anchorCount = 0 := by
  have gen : ∀ (evs : List (Nat × SpatialEvent)) (st : Store),
      (∀ p ∈ st.stags, (p : String × StagRec).2.stats.anchorCount = 0) →
      ∀ p ∈ (ingestAll evs st).stags,
        (p : String × StagRec).2.stats.anchorCount = 0 := by
    intro evs
    induction evs with
    | nil => intro st hinv; exact hinv
    | cons q rest ih =>
        intro st hinv
        rw [ingestAll, List.foldl_cons]
        exact ih _ (processEvent_anchorCount _ _ _ _ hinv)
  intro evs p hp
  exact gen evs emptyStore (by intro p hp; simp [emptyStore] at hp) p hp

/-- Witness for `c10_anchor_count_always_zero`: after ingesting one pose
event, graph "S1" is stored with `anchor_count = 0`. -/
theorem c10_anchor_count_witness :
    (("S1", (GetStag c2Store1 "S1").getD
        { id := "", name := "", description := "", createdAt := 0,
          updatedAt := 0, stats := StagStats.zero, metadata := [] }) :
      String × StagRec).2.stats.anchorCount = 0 :=
  c10_anchor_count_always_zero [(100, poseEv)] _
    (of_decide_eq_true (by with_unfolding_all rfl))
